import Mathlib

/-!
Verification of the Jarvis-core conversational agent (src/main.py, src/server.py)
against its natural-language specification.

The development shallowly embeds the pieces of the program that the claims are
about: the time tool's timezone resolution, the hardened file-read tool of the
HTTP variant, the two transport adapters' tool-orchestration loops, and the
per-session history store.  External collaborators (the hosted language model,
the web-search backend, the filesystem) are modelled as explicit oracles passed
in as functions; a Python exception escaping a call is modelled as the
`Except.error` branch of that oracle's result.
-/

namespace Jarvis

/-! ## Generic list/string utilities

Python string operations used by the sources (`.upper()`, `.lower()`,
`.strip()`, `in`, `.startswith`, `'/'.join`, splitting on `/`) are embedded on
`List Char` so that every definition is kernel-executable. -/

/-- `segStartsWith pre l` is true when the list `l` starts with `pre`
(Python `l.startswith(pre)` for strings, list prefix otherwise). -/
def segStartsWith {α : Type} [BEq α] : List α → List α → Bool
  | [], _ => true
  | _ :: _, [] => false
  | a :: as, b :: bs => a == b && segStartsWith as bs

/-- `hasSegment needle hay` is true when `needle` occurs as a contiguous
segment of `hay` (Python `needle in hay` for strings). -/
def hasSegment {α : Type} [BEq α] (needle : List α) : List α → Bool
  | [] => segStartsWith needle []
  | a :: rest => segStartsWith needle (a :: rest) || hasSegment needle rest

/-- Python `str.upper`, character-wise. -/
def upperStr (s : String) : String := ⟨s.data.map Char.toUpper⟩

/-- Python `str.lower`, character-wise. -/
def lowerStr (s : String) : String := ⟨s.data.map Char.toLower⟩

/-- The whitespace characters recognised by the embedding of Python
`str.strip`. -/
def isSpaceChar (c : Char) : Bool := c == ' ' || c == '\t' || c == '\n' || c == '\r'

/-- Python `str.strip`: drop leading and trailing whitespace. -/
def stripStr (s : String) : String :=
  ⟨((s.data.dropWhile isSpaceChar).reverse.dropWhile isSpaceChar).reverse⟩

/-- Python `s.startswith(pre)`. -/
def strStartsWith (s pre : String) : Bool := segStartsWith pre.data s.data

/-- Split a character list on a separator character. -/
def splitCharList (sep : Char) : List Char → List (List Char)
  | [] => [[]]
  | c :: rest =>
    match splitCharList sep rest with
    | [] => if c == sep then [[], []] else [[c]]
    | g :: gs => if c == sep then [] :: g :: gs else (c :: g) :: gs

/-! ## Path model (pathlib on POSIX, no symlinks)

`src/server.py` builds `(base_dir / file_path).resolve()` and compares the
rendered strings with `str.startswith`.  Absolute paths are modelled as lists
of components; `resolve` normalises `..` lexically (the deployment is modelled
symlink-free). -/

/-- The components of a path string: split on `/`, dropping empty components
and `.` exactly as `pathlib.PurePosixPath` does at construction. -/
def pathParts (s : String) : List String :=
  ((splitCharList '/' s.data).map (fun l => (⟨l⟩ : String))).filter
    (fun c => !(c == "") && !(c == "."))

/-- `pathlib` `/` on an absolute base: an absolute right operand replaces the
base, a relative one is appended. -/
def joinPath (base : List String) (rel : String) : List String :=
  if strStartsWith rel "/" then pathParts rel else base ++ pathParts rel

/-- Lexical normalisation performed by `Path.resolve` in the absence of
symlinks: each `..` removes the preceding component (staying at the root when
there is none). -/
def resolveComponents (cs : List String) : List String :=
  cs.foldl (fun acc c => if c == ".." then acc.dropLast else acc ++ [c]) []

/-- Render an absolute path from its components, as `str(Path(...))` does. -/
def pathStr : List String → String
  | [] => "/"
  | cs => "/" ++ joinSlash cs
where
  joinSlash : List String → String
    | [] => ""
    | [c] => c
    | c :: c2 :: rest => c ++ "/" ++ joinSlash (c2 :: rest)

/-- `Path.name`: the final component, `""` for the root. -/
def pathName (cs : List String) : String := cs.getLast?.getD ""

/-! ## Hardened file-read tool (`src/server.py`, `read_local_file`) -/

/-- `Path.home() / "Desktop" / "portfolio"` for a given home directory. -/
def base_dir (home : List String) : List String := home ++ ["Desktop", "portfolio"]

/-- The string returned when the prefix check rejects the target path. -/
def securityViolation : String :=
  "[Error] Security Violation: Attempted to access files outside the project directory."

/-- The resolved target path `(base_dir / file_path).resolve()`. -/
def resolvedTarget (home : List String) (file_path : String) : List String :=
  resolveComponents (joinPath (base_dir home) file_path)

/-- Embedding of the hardened `read_local_file` of `src/server.py`.  The
filesystem is an oracle from resolved absolute paths to the contents of the
readable files (`none` for a missing file).  The body follows the source:
resolve against the base directory, reject when `str(target)` does not start
with `str(base_dir)`, report a missing file, otherwise return the contents
under the content header. -/
def read_local_file (home : List String) (fs : List String → Option String)
    (file_path : String) : String :=
  let target := resolvedTarget home file_path
  if !(strStartsWith (pathStr target) (pathStr (base_dir home))) then
    securityViolation
  else
    match fs target with
    | none => "[Error] File not found at " ++ pathStr target
    | some content => "[File Content of " ++ pathName target ++ "]\n" ++ content

/-- Whether the resolved target actually lies inside the base directory:
the base directory's components are a prefix of the target's components. -/
def insideBaseDir (home : List String) (file_path : String) : Bool :=
  segStartsWith (base_dir home) (resolvedTarget home file_path)

/-! ## Time tool (`src/main.py`, `get_current_time`)

Only the timezone resolution has observable, machine-checkable behaviour (the
formatted wall-clock reading depends on the real clock); the keyword table and
the first-match-wins loop are embedded exactly. -/

/-- The `zone_mapping` dictionary of `get_current_time`, in insertion order
(Python dicts iterate in insertion order). -/
def zone_mapping : List (String × String) :=
  [("KST", "Asia/Seoul"), ("SEOUL", "Asia/Seoul"), ("KOREA", "Asia/Seoul"),
   ("한국", "Asia/Seoul"),
   ("CST", "America/Chicago"), ("TEXAS", "America/Chicago"),
   ("CHICAGO", "America/Chicago")]

/-- The `for key, val in zone_mapping.items(): if key in query_upper: ... break`
loop, with the default already in the accumulator. -/
def zoneLoop : List (String × String) → String → String
  | [], _ => "America/Chicago"
  | (k, v) :: rest, query_upper =>
    if hasSegment k.data query_upper.data then v else zoneLoop rest query_upper

/-- The timezone-name resolution performed by `get_current_time`:
uppercase the query, then first keyword match wins, defaulting to
`America/Chicago`. -/
def resolve_target_zone (timezone_query : String) : String :=
  zoneLoop zone_mapping (upperStr timezone_query)

/-- The specification's reading of the table lookup: a case-insensitive
substring match where the first matching table entry wins, with the default
zone when nothing matches. -/
def specTargetZone (timezone_query : String) : String :=
  ((zone_mapping.find? (fun kv =>
      hasSegment kv.1.data (upperStr timezone_query).data)).map Prod.snd).getD
    "America/Chicago"

/-! ## Data model of the orchestration loop -/

/-- A model-emitted tool request: correlation id, tool name, and arguments
(kept opaque as a string). -/
structure ToolCall where
  id : String
  name : String
  args : String
deriving DecidableEq, Repr

/-- The message tagged union: System and Human carry text, Assistant carries
text plus tool requests, ToolResult (`ToolMessage`) carries the correlation
id, the tool name and the stringified output. -/
inductive Message where
  | system : String → Message
  | human : String → Message
  | ai : String → List ToolCall → Message
  | toolMsg : String → String → String → Message
deriving DecidableEq, Repr

/-- What one model invocation returns: free text plus zero or more tool
requests. -/
structure AIResponse where
  content : String
  tool_calls : List ToolCall
deriving DecidableEq, Repr

/-- Countable external effects of one orchestration pass: a model inference
or the invocation of a registered tool. -/
inductive Event where
  | modelInvoke : Event
  | toolInvoke : String → Event
deriving DecidableEq, Repr

/-- A tool registry: names mapped to `invoke` functions.  `Except.error`
models `invoke` raising (schema-validation failures and any exception the
tool body lets escape). -/
def ToolMap : Type := List (String × (String → Except String String))

/-- The model capability: given the full history, either an answer (text
and/or tool requests) or a raised exception. -/
def ModelFn : Type := List Message → Except String AIResponse

def isModelInvoke : Event → Bool
  | .modelInvoke => true
  | .toolInvoke _ => false

def isToolInvoke : Event → Bool
  | .modelInvoke => false
  | .toolInvoke _ => true

def modelInvokeCount (evs : List Event) : Nat := (evs.filter isModelInvoke).length

def toolInvokeCount (evs : List Event) : Nat := (evs.filter isToolInvoke).length

def isSystem : Message → Bool
  | .system _ => true
  | _ => false

/-! ## Interactive adapter (`src/main.py`) -/

/-- `str(KeyError(msg))` where `msg` is the Korean message naming the tool:
Python renders a `KeyError` as the `repr` of its argument, and the argument
contains single quotes, so the rendering wraps it in double quotes. -/
def keyErrorStr (tool_name : String) : String :=
  "\"" ++ "'" ++ tool_name ++ "' 도구는 존재하지 않습니다." ++ "\""

/-- The fallback observation produced for an unregistered tool name. -/
def unknownToolFallback (tool_name : String) : String :=
  "[System Fallback] " ++ keyErrorStr tool_name ++ " 사용할 수 있는 도구만 사용하세요."

/-- The fallback observation produced when a tool invocation raises `e`. -/
def toolFailureFallback (e : String) : String :=
  "[System Fallback] 도구 실행 실패: " ++ e

/-- The fixed reply substituted when the second inference returns blank
text (printed after the `[Jarvis] ` prompt). -/
def jarvisFallback : String :=
  "(데이터를 확인했으나 답변 생성 중 오류가 발생했습니다. 도구의 Raw Data를 확인하십시오.)"

/-- One iteration of the interactive tool loop body for a single tool
request, returning the appended `ToolMessage` and the tool-invocation events
performed.  Mirrors `src/main.py` lines 159-190: the human-in-the-loop gate
for `delete_database_table` (the `approval` oracle models the `y/n` input),
then the guarded lookup by lowercased name and the guarded invocation. -/
def mainProcessOne (tools_map : ToolMap) (approval : ToolCall → Bool)
    (tc : ToolCall) : Message × List Event :=
  if tc.name == "delete_database_table" && !(approval tc) then
    (Message.toolMsg tc.id tc.name "User denied.", [])
  else
    match List.lookup (lowerStr tc.name) tools_map with
    | none => (Message.toolMsg tc.id tc.name (unknownToolFallback tc.name), [])
    | some t =>
      match t tc.args with
      | .ok out => (Message.toolMsg tc.id tc.name out, [Event.toolInvoke tc.name])
      | .error e =>
        (Message.toolMsg tc.id tc.name (toolFailureFallback e), [Event.toolInvoke tc.name])

/-- The whole `for tool_call in response.tool_calls` loop: the appended
`ToolMessage`s in order, and the tool-invocation events performed. -/
def mainProcessCalls (tools_map : ToolMap) (approval : ToolCall → Bool) :
    List ToolCall → List Message × List Event
  | [] => ([], [])
  | tc :: rest =>
    let step := mainProcessOne tools_map approval tc
    let restOut := mainProcessCalls tools_map approval rest
    (step.1 :: restOut.1, step.2 ++ restOut.2)

/-- Outcome of one pass of the interactive pipeline: either a printed
`[Jarvis]` reply or the `[Critical Error]` branch of the outer
`try`/`except`. -/
inductive PassResult where
  | reply : String → PassResult
  | pipelineError : String → PassResult
deriving DecidableEq, Repr

structure MainPassOut where
  history : List Message
  result : PassResult
  events : List Event
deriving Repr

/-- One pass of the interactive pipeline of `src/main.py` (the body of the
`while True` loop after the quit check): append the Human message, first
inference, optional tool phase plus second inference with the empty-output
guard.  A model exception propagates to the outer handler but the history
mutations made before it persist. -/
def mainPass (model : ModelFn) (tools_map : ToolMap) (approval : ToolCall → Bool)
    (history : List Message) (user_input : String) : MainPassOut :=
  let h1 := history ++ [Message.human user_input]
  match model h1 with
  | .error e => ⟨h1, .pipelineError e, [Event.modelInvoke]⟩
  | .ok response =>
    let h2 := h1 ++ [Message.ai response.content response.tool_calls]
    if response.tool_calls.isEmpty then
      ⟨h2, .reply response.content, [Event.modelInvoke]⟩
    else
      let batch := mainProcessCalls tools_map approval response.tool_calls
      let h3 := h2 ++ batch.1
      match model h3 with
      | .error e =>
        ⟨h3, .pipelineError e, Event.modelInvoke :: batch.2 ++ [Event.modelInvoke]⟩
      | .ok finalResponse =>
        let out := if stripStr finalResponse.content == "" then jarvisFallback
                   else finalResponse.content
        ⟨h3 ++ [Message.ai finalResponse.content finalResponse.tool_calls],
         .reply out, Event.modelInvoke :: batch.2 ++ [Event.modelInvoke]⟩

/-- The line the interactive adapter prints for a pass outcome. -/
def printedLine : PassResult → String
  | .reply t => "[Jarvis] " ++ t
  | .pipelineError e => "[Critical Error] Agent 파이프라인 붕괴: " ++ e

/-- The interactive `while True` loop over a list of stdin lines: `quit` or
`exit` (case-insensitive) terminates, any other line runs one pass and the
loop always continues with the grown history. -/
def mainLoop (model : ModelFn) (tools_map : ToolMap) (approval : ToolCall → Bool) :
    List String → List Message → List String
  | [], _ => []
  | input :: rest, history =>
    if lowerStr input == "quit" || lowerStr input == "exit" then []
    else
      let p := mainPass model tools_map approval history input
      printedLine p.result :: mainLoop model tools_map approval rest p.history

/-- The registry of `src/main.py` (`tools_map = {tool.name: tool ...}`):
the four registered names, with the externally-backed `invoke` callables
supplied as parameters. -/
def mainToolsMap (gct rlf sm ws : String → Except String String) : ToolMap :=
  [("get_current_time", gct), ("read_local_file", rlf),
   ("search_memory", sm), ("web_search", ws)]

/-! ## HTTP adapter (`src/server.py`) -/

/-- The fixed system prompt seeded into every new session history. -/
def serverSystemPrompt : String :=
  "You are 'Jarvis Core', an elite AI architecture reviewer and autonomous agent.\n" ++
  "You are assisting Jiwoong with the 'smart-freight-ai' project and reviewing C programming code.\n" ++
  "Always answer in Korean concisely.\n" ++
  "If asked to read code, use the `read_local_file` tool.\n" ++
  "If asked about recent events, use the `web_search` tool.\n" ++
  "CRITICAL RULE: The user is listening via voice (TTS). DO NOT use any markdown formatting like **, *, #, or bullet points. Output plain spoken conversational text only."

/-- The in-memory `session_db`: session id mapped to its message history. -/
def SessionDB : Type := List (String × List Message)

def lookupSession (db : SessionDB) (sid : String) : Option (List Message) :=
  List.lookup sid db

/-- Write back a session's (in Python, in-place mutated) history. -/
def updateSession : SessionDB → String → List Message → SessionDB
  | [], sid, h => [(sid, h)]
  | (k, v) :: rest, sid, h =>
    if k == sid then (sid, h) :: rest else (k, v) :: updateSession rest sid h

/-- `get_session_history` of `src/server.py`: first access for an id seeds the
history with exactly one System message; later accesses return the stored
history unchanged.  Returns the (possibly extended) store and the history. -/
def get_session_history (db : SessionDB) (session_id : String) :
    SessionDB × List Message :=
  match lookupSession db session_id with
  | some h => (db, h)
  | none =>
    ((session_id, [Message.system serverSystemPrompt]) :: db,
     [Message.system serverSystemPrompt])

/-- The server's `web_search` tool body, over an external search oracle. -/
def server_web_search (ext : String → Except String String) (query : String) : String :=
  match ext query with
  | .ok r => "[Web Search Result]\n" ++ r
  | .error e => "[Error] Web search failed: " ++ e

/-- The server's `search_memory` placeholder tool body. -/
def server_search_memory (_query : String) : String :=
  "[Memory] (Vector DB integration is pending. Placeholder response.)"

/-- The server registry `tools_map = {t.name: t ...}` over the three tools,
parameterised by the home directory, the filesystem, and the web-search
backend.  The tool bodies catch their own errors and return strings. -/
def serverToolsMap (home : List String) (fs : List String → Option String)
    (ext : String → Except String String) : ToolMap :=
  [("web_search", fun q => Except.ok (server_web_search ext q)),
   ("read_local_file", fun p => Except.ok (read_local_file home fs p)),
   ("search_memory", fun q => Except.ok (server_search_memory q))]

/-- Result of the server's `for tool_call in response.tool_calls` loop:
messages appended before any escaping exception, the tool-invocation events,
and the escaping exception if one was raised.  Unregistered names are
`continue`d over; an `invoke` that raises is not caught here, so it ends the
batch with the messages appended so far kept. -/
structure BatchOut where
  msgs : List Message
  events : List Event
  err : Option String
deriving Repr

def serverProcessCalls (tools_map : ToolMap) : List ToolCall → BatchOut
  | [] => ⟨[], [], none⟩
  | tc :: rest =>
    match List.lookup (lowerStr tc.name) tools_map with
    | none => serverProcessCalls tools_map rest
    | some t =>
      match t tc.args with
      | .error e => ⟨[], [Event.toolInvoke tc.name], some e⟩
      | .ok out =>
        let b := serverProcessCalls tools_map rest
        ⟨Message.toolMsg tc.id tc.name out :: b.msgs,
         Event.toolInvoke tc.name :: b.events, b.err⟩

structure ChatOut where
  db : SessionDB
  response : Except Nat String
  events : List Event

/-- The `POST /chat` handler of `src/server.py`: resolve or create the
session, append the Human message, first inference, optional tool phase and
second inference, returning the reply (no empty-output guard in this
variant).  Any exception escaping the body is caught and turned into the
generic 500; the history entries appended before it stay in the store, since
the Python list is mutated in place. -/
def chat_endpoint (model : ModelFn) (tools_map : ToolMap) (db : SessionDB)
    (message session_id : String) : ChatOut :=
  let g := get_session_history db session_id
  let h1 := g.2 ++ [Message.human message]
  match model h1 with
  | .error _ => ⟨updateSession g.1 session_id h1, .error 500, [Event.modelInvoke]⟩
  | .ok response =>
    let h2 := h1 ++ [Message.ai response.content response.tool_calls]
    if response.tool_calls.isEmpty then
      ⟨updateSession g.1 session_id h2, .ok response.content, [Event.modelInvoke]⟩
    else
      let b := serverProcessCalls tools_map response.tool_calls
      let h3 := h2 ++ b.msgs
      match b.err with
      | some _ =>
        ⟨updateSession g.1 session_id h3, .error 500, Event.modelInvoke :: b.events⟩
      | none =>
        match model h3 with
        | .error _ =>
          ⟨updateSession g.1 session_id h3, .error 500,
           Event.modelInvoke :: b.events ++ [Event.modelInvoke]⟩
        | .ok finalResponse =>
          ⟨updateSession g.1 session_id
             (h3 ++ [Message.ai finalResponse.content finalResponse.tool_calls]),
           .ok finalResponse.content,
           Event.modelInvoke :: b.events ++ [Event.modelInvoke]⟩

/-- Operations against the process-lifetime session store: a bare
`get_session_history` access or a full `/chat` request. -/
inductive Op where
  | access : String → Op
  | chat : ModelFn → ToolMap → String → String → Op

def applyOp (db : SessionDB) : Op → SessionDB
  | .access sid => (get_session_history db sid).1
  | .chat model tools_map message sid => (chat_endpoint model tools_map db message sid).db

def runOps : List Op → SessionDB → SessionDB
  | [], db => db
  | op :: rest, db => runOps rest (applyOp db op)

/-- A well-formed session history: the fixed System message at index 0 and
no System message anywhere in the tail. -/
def goodHistoryB : List Message → Bool
  | Message.system c :: tail =>
    c == serverSystemPrompt && tail.all (fun m => !(isSystem m))
  | _ => false

/-! ## Concrete instances used by witnesses and counterexamples -/

/-- A concrete home directory for the deployment machine. -/
def demoHome : List String := ["Users", "jiwoong"]

/-- A one-file filesystem: the sibling directory `portfolioX` (outside the
`portfolio` base directory) holds a readable secret. -/
def demoFs : List String → Option String := fun p =>
  if p = ["Users", "jiwoong", "Desktop", "portfolioX", "secret.txt"] then
    some "TOP-SECRET" else none

def demoExt : String → Except String String := fun _ => Except.ok "ddg result"

/-- The server registry over the demo externals. -/
def demoServerMap : ToolMap := serverToolsMap demoHome demoFs demoExt

/-- The interactive registry with trivial externally-backed callables (only
the registered names matter to the claims that use it). -/
def demoMainMap : ToolMap :=
  mainToolsMap (fun _ => Except.ok "time") (fun _ => Except.ok "file")
    (fun _ => Except.ok "memory") (fun _ => Except.ok "web")

def demoApproval : ToolCall → Bool := fun _ => true

def denyAll : ToolCall → Bool := fun _ => false

def emptyDb : SessionDB := []

/-- A model whose first-phase answer requests one unregistered tool
(`weather_api`, the very name the system prompt forbids inventing) and whose
second phase answers normally. -/
def cex2Call : ToolCall := ⟨"call_1", "weather_api", "dallas"⟩

def cex2Model : ModelFn := fun h =>
  if h.length ≤ 2 then Except.ok ⟨"", [cex2Call]⟩ else Except.ok ⟨"done", []⟩

/-- A model that uses a registered tool and then answers with blank text. -/
def cex3Model : ModelFn := fun h =>
  if h.length ≤ 2 then Except.ok ⟨"", [⟨"call_1", "search_memory", "rules"⟩]⟩
  else Except.ok ⟨"", []⟩

/-- A registry in which `web_search` raises (as `invoke` does on a
schema-validation failure) while `search_memory` works. -/
def cex4Map : ToolMap :=
  [("web_search", fun _ => Except.error "1 validation error for web_search"),
   ("search_memory", fun q => Except.ok (server_search_memory q))]

def cex4Calls : List ToolCall :=
  [⟨"call_1", "web_search", "news"⟩, ⟨"call_2", "search_memory", "rules"⟩]

def cex4Model : ModelFn := fun h =>
  if h.length ≤ 2 then Except.ok ⟨"", cex4Calls⟩ else Except.ok ⟨"done", []⟩

/-- A request for the human-in-the-loop gated name, which is not registered. -/
def cex5Call : ToolCall := ⟨"call_9", "delete_database_table", "{}"⟩

/-- A model for interactive witnesses: one registered tool request, then a
normal answer. -/
def demoToolModel : ModelFn := fun h =>
  if h.length ≤ 1 then Except.ok ⟨"", [⟨"call_1", "search_memory", "rules"⟩]⟩
  else Except.ok ⟨"정리된 답변입니다.", []⟩

/-- A model that is unreachable: every invocation raises. -/
def demoFailModel : ModelFn := fun _ => Except.error "engine unreachable"

/-- A model for interactive witnesses whose second phase returns whitespace
only. -/
def demoBlankModel : ModelFn := fun h =>
  if h.length ≤ 1 then Except.ok ⟨"", [⟨"call_1", "search_memory", "rules"⟩]⟩
  else Except.ok ⟨"  \n", []⟩

/-- Whether the interactive loop actually calls `invoke` for a request: the
human-in-the-loop gate did not drop it and its lowercased name is
registered. -/
def mainInvoked (tools_map : ToolMap) (approval : ToolCall → Bool)
    (tc : ToolCall) : Bool :=
  !(tc.name == "delete_database_table" && !(approval tc)) &&
    (List.lookup (lowerStr tc.name) tools_map).isSome

/-- Whether the HTTP loop calls `invoke` for a request: only registration
matters, there is no gate. -/
def serverInvoked (tools_map : ToolMap) (tc : ToolCall) : Bool :=
  (List.lookup (lowerStr tc.name) tools_map).isSome

/-- Every history in the store is well formed. -/
def dbGood (db : SessionDB) : Prop :=
  ∀ sid h, lookupSession db sid = some h → goodHistoryB h = true

/-! ## Helper lemmas -/

theorem zoneLoop_eq_find (l : List (String × String)) (qu : String) :
    zoneLoop l qu =
      ((l.find? (fun kv => hasSegment kv.1.data qu.data)).map Prod.snd).getD
        "America/Chicago" := by
  induction l with
  | nil => rfl
  | cons kv rest ih =>
    obtain ⟨k, v⟩ := kv
    cases h : hasSegment k.data qu.data with
    | true => simp [zoneLoop, List.find?, h]
    | false => simp [zoneLoop, List.find?, h, ih]

theorem mainProcessCalls_append (m : ToolMap) (a : ToolCall → Bool)
    (xs ys : List ToolCall) :
    mainProcessCalls m a (xs ++ ys) =
      ((mainProcessCalls m a xs).1 ++ (mainProcessCalls m a ys).1,
       (mainProcessCalls m a xs).2 ++ (mainProcessCalls m a ys).2) := by
  induction xs with
  | nil => simp [mainProcessCalls]
  | cons tc rest ih => simp [mainProcessCalls, ih]

theorem mainProcessCalls_msgs_length (m : ToolMap) (a : ToolCall → Bool)
    (tcs : List ToolCall) :
    (mainProcessCalls m a tcs).1.length = tcs.length := by
  induction tcs with
  | nil => rfl
  | cons tc rest ih => simp [mainProcessCalls, ih]

theorem mainProcessCalls_events (m : ToolMap) (a : ToolCall → Bool)
    (tcs : List ToolCall) :
    (mainProcessCalls m a tcs).2 =
      (tcs.filter (mainInvoked m a)).map (fun tc => Event.toolInvoke tc.name) := by
  induction tcs with
  | nil => rfl
  | cons tc rest ih =>
    cases hd : (tc.name == "delete_database_table" && !(a tc)) with
    | true => simp [mainProcessCalls, mainProcessOne, hd, mainInvoked, ih]
    | false =>
      cases hl : List.lookup (lowerStr tc.name) m with
      | none => simp [mainProcessCalls, mainProcessOne, hd, hl, mainInvoked, ih]
      | some t =>
        cases ht : t tc.args with
        | ok out => simp [mainProcessCalls, mainProcessOne, hd, hl, ht, mainInvoked, ih]
        | error e => simp [mainProcessCalls, mainProcessOne, hd, hl, ht, mainInvoked, ih]

theorem serverProcessCalls_skip (m : ToolMap) (pre post : List ToolCall)
    (bad : ToolCall) (hb : List.lookup (lowerStr bad.name) m = none) :
    serverProcessCalls m (pre ++ bad :: post) = serverProcessCalls m (pre ++ post) := by
  induction pre with
  | nil => simp [serverProcessCalls, hb]
  | cons tc rest ih =>
    cases hl : List.lookup (lowerStr tc.name) m with
    | none => simpa [serverProcessCalls, hl] using ih
    | some t =>
      cases ht : t tc.args with
      | error e => simp [serverProcessCalls, hl, ht]
      | ok out => simp [serverProcessCalls, hl, ht, ih]

theorem serverProcessCalls_msgs_tool (m : ToolMap) (tcs : List ToolCall) :
    ∀ msg ∈ (serverProcessCalls m tcs).msgs, isSystem msg = false := by
  induction tcs with
  | nil => simp [serverProcessCalls]
  | cons tc rest ih =>
    cases hl : List.lookup (lowerStr tc.name) m with
    | none => simpa [serverProcessCalls, hl] using ih
    | some t =>
      cases ht : t tc.args with
      | error e => simp [serverProcessCalls, hl, ht]
      | ok out =>
        intro msg hmsg
        simp [serverProcessCalls, hl, ht] at hmsg
        rcases hmsg with h | h
        · subst h; rfl
        · exact ih msg h

theorem serverProcessCalls_events_tool (m : ToolMap) (tcs : List ToolCall) :
    ∀ ev ∈ (serverProcessCalls m tcs).events, isModelInvoke ev = false := by
  induction tcs with
  | nil => simp [serverProcessCalls]
  | cons tc rest ih =>
    cases hl : List.lookup (lowerStr tc.name) m with
    | none => simpa [serverProcessCalls, hl] using ih
    | some t =>
      cases ht : t tc.args with
      | error e => simp [serverProcessCalls, hl, ht, isModelInvoke]
      | ok out =>
        intro ev hev
        simp [serverProcessCalls, hl, ht] at hev
        rcases hev with h | h
        · subst h; rfl
        · exact ih ev h

theorem serverProcessCalls_events_of_ok (m : ToolMap) (tcs : List ToolCall)
    (h : (serverProcessCalls m tcs).err = none) :
    (serverProcessCalls m tcs).events =
      (tcs.filter (serverInvoked m)).map (fun tc => Event.toolInvoke tc.name) := by
  induction tcs with
  | nil => rfl
  | cons tc rest ih =>
    cases hl : List.lookup (lowerStr tc.name) m with
    | none => simpa [serverProcessCalls, hl, serverInvoked] using ih (by simpa [serverProcessCalls, hl] using h)
    | some t =>
      cases ht : t tc.args with
      | error e => simp [serverProcessCalls, hl, ht] at h
      | ok out =>
        have h' : (serverProcessCalls m rest).err = none := by
          simpa [serverProcessCalls, hl, ht] using h
        simp [serverProcessCalls, hl, ht, serverInvoked, ih h']

theorem modelInvokeCount_wrap (evs : List Event)
    (h : ∀ ev ∈ evs, isModelInvoke ev = false) :
    modelInvokeCount (Event.modelInvoke :: evs ++ [Event.modelInvoke]) = 2 := by
  have : evs.filter isModelInvoke = [] := by
    rw [List.filter_eq_nil_iff]
    intro a ha
    simp [h a ha]
  simp [modelInvokeCount, List.filter_append, this, isModelInvoke]

theorem lookup_updateSession_self (db : SessionDB) (sid : String) (h : List Message) :
    lookupSession (updateSession db sid h) sid = some h := by
  induction db with
  | nil => simp [updateSession, lookupSession, List.lookup]
  | cons kv rest ih =>
    obtain ⟨k, v⟩ := kv
    by_cases hk : k = sid
    · subst hk
      simp [updateSession, lookupSession, List.lookup]
    · have hk2 : (k == sid) = false := beq_eq_false_iff_ne.mpr hk
      have hk3 : (sid == k) = false := beq_eq_false_iff_ne.mpr (fun hx => hk hx.symm)
      simpa [updateSession, hk2, lookupSession, List.lookup, hk3] using ih

theorem lookup_updateSession_ne (db : SessionDB) (sid s2 : String)
    (h : List Message) (hne : s2 ≠ sid) :
    lookupSession (updateSession db sid h) s2 = lookupSession db s2 := by
  have hs2 : (s2 == sid) = false := beq_eq_false_iff_ne.mpr hne
  induction db with
  | nil => simp [updateSession, lookupSession, List.lookup, hs2]
  | cons kv rest ih =>
    obtain ⟨k, v⟩ := kv
    by_cases hk : k = sid
    · subst hk
      simp [updateSession, lookupSession, List.lookup, hs2]
    · have hk2 : (k == sid) = false := beq_eq_false_iff_ne.mpr hk
      cases hsk : s2 == k with
      | true => simp [updateSession, hk2, lookupSession, List.lookup, hsk]
      | false => simpa [updateSession, hk2, lookupSession, List.lookup, hsk] using ih

theorem get_session_history_frame (db : SessionDB) (sid s2 : String)
    (hne : s2 ≠ sid) :
    lookupSession (get_session_history db sid).1 s2 = lookupSession db s2 := by
  have hs2 : (s2 == sid) = false := beq_eq_false_iff_ne.mpr hne
  unfold get_session_history
  cases hl : lookupSession db sid with
  | some h => simp
  | none => simp [lookupSession, List.lookup, hs2]

theorem lookup_get_session_history (db : SessionDB) (sid : String) :
    lookupSession (get_session_history db sid).1 sid =
      some (get_session_history db sid).2 := by
  unfold get_session_history
  cases hl : lookupSession db sid with
  | some h => simpa using hl
  | none => simp [lookupSession, List.lookup]

theorem mainPass_history_shape (model : ModelFn) (m : ToolMap)
    (a : ToolCall → Bool) (history : List Message) (input : String) :
    ∃ tail, (mainPass model m a history input).history =
      history ++ Message.human input :: tail := by
  simp only [mainPass]
  split
  · exact ⟨[], by simp⟩
  next response hm =>
    split
    · exact ⟨[Message.ai response.content response.tool_calls], by simp⟩
    · split
      · exact ⟨Message.ai response.content response.tool_calls ::
          (mainProcessCalls m a response.tool_calls).1, by simp⟩
      next fin hfin =>
        exact ⟨Message.ai response.content response.tool_calls ::
          ((mainProcessCalls m a response.tool_calls).1 ++
            [Message.ai fin.content fin.tool_calls]), by simp⟩

theorem chat_endpoint_db_shape (model : ModelFn) (m : ToolMap) (db : SessionDB)
    (message sid : String) :
    ∃ tail, (chat_endpoint model m db message sid).db =
      updateSession (get_session_history db sid).1 sid
        ((get_session_history db sid).2 ++ Message.human message :: tail) ∧
      ∀ x ∈ tail, isSystem x = false := by
  simp only [chat_endpoint]
  split
  · exact ⟨[], by simp, by simp⟩
  next response hm =>
    split
    · exact ⟨[Message.ai response.content response.tool_calls],
        by simp, by simp [isSystem]⟩
    · split
      · refine ⟨Message.ai response.content response.tool_calls ::
          (serverProcessCalls m response.tool_calls).msgs, by simp, ?_⟩
        intro x hx
        rcases List.mem_cons.mp hx with rfl | hx2
        · rfl
        · exact serverProcessCalls_msgs_tool m response.tool_calls x hx2
      · split
        · refine ⟨Message.ai response.content response.tool_calls ::
            (serverProcessCalls m response.tool_calls).msgs, by simp, ?_⟩
          intro x hx
          rcases List.mem_cons.mp hx with rfl | hx2
          · rfl
          · exact serverProcessCalls_msgs_tool m response.tool_calls x hx2
        next fin hfin =>
          refine ⟨Message.ai response.content response.tool_calls ::
            ((serverProcessCalls m response.tool_calls).msgs ++
              [Message.ai fin.content fin.tool_calls]), by simp, ?_⟩
          intro x hx
          rcases List.mem_cons.mp hx with rfl | hx2
          · rfl
          · rcases List.mem_append.mp hx2 with hx3 | hx3
            · exact serverProcessCalls_msgs_tool m response.tool_calls x hx3
            · rcases List.mem_singleton.mp hx3 with rfl
              rfl

theorem isEmpty_false_of_ne {α : Type} (l : List α) (h : l ≠ []) :
    l.isEmpty = false := by
  cases l with
  | nil => exact absurd rfl h
  | cons x xs => rfl

theorem segStartsWith_refl_append {α : Type} [BEq α] [LawfulBEq α]
    (b c : List α) : segStartsWith b (b ++ c) = true := by
  induction b with
  | nil => rfl
  | cons x xs ih => simp [segStartsWith, ih]

theorem hasSegment_of_starts {α : Type} [BEq α] (b l : List α)
    (h : segStartsWith b l = true) : hasSegment b l = true := by
  cases l with
  | nil => simpa [hasSegment] using h
  | cons x xs => simp [hasSegment, h]

theorem hasSegment_append_middle {α : Type} [BEq α] [LawfulBEq α]
    (a b c : List α) : hasSegment b (a ++ b ++ c) = true := by
  induction a with
  | nil => exact hasSegment_of_starts _ _ (by simpa using segStartsWith_refl_append b c)
  | cons x xs ih =>
    simp only [List.cons_append]
    simp only [hasSegment, Bool.or_eq_true]
    right
    simpa [List.append_assoc] using ih

theorem hasSegment_str_suffix (pre e : String) :
    hasSegment e.data (pre ++ e).data = true := by
  have h := hasSegment_append_middle pre.data e.data ([] : List Char)
  simpa [String.data_append] using h

theorem mainPass_events (model : ModelFn) (m : ToolMap) (a : ToolCall → Bool)
    (history : List Message) (input : String) (response : AIResponse)
    (hm : model (history ++ [Message.human input]) = Except.ok response) :
    (mainPass model m a history input).events =
      if response.tool_calls.isEmpty then [Event.modelInvoke]
      else Event.modelInvoke ::
        (mainProcessCalls m a response.tool_calls).2 ++ [Event.modelInvoke] := by
  simp only [mainPass, hm]
  by_cases hc : response.tool_calls.isEmpty
  · simp [hc]
  · rw [if_neg hc, if_neg hc]
    split <;> simp

theorem chat_endpoint_events (model : ModelFn) (m : ToolMap) (db : SessionDB)
    (message sid : String) (response : AIResponse)
    (hm : model ((get_session_history db sid).2 ++ [Message.human message]) =
      Except.ok response) :
    (chat_endpoint model m db message sid).events =
      if response.tool_calls.isEmpty then [Event.modelInvoke]
      else if (serverProcessCalls m response.tool_calls).err = none then
        Event.modelInvoke ::
          (serverProcessCalls m response.tool_calls).events ++ [Event.modelInvoke]
      else Event.modelInvoke :: (serverProcessCalls m response.tool_calls).events := by
  simp only [chat_endpoint, hm]
  by_cases hc : response.tool_calls.isEmpty
  · simp [hc]
  · rw [if_neg hc, if_neg hc]
    cases herr : (serverProcessCalls m response.tool_calls).err with
    | some e => simp [herr]
    | none =>
      simp only [herr, if_pos rfl]
      split <;> simp

theorem chat_endpoint_error_code (model : ModelFn) (m : ToolMap) (db : SessionDB)
    (message sid : String) (c : Nat)
    (h : (chat_endpoint model m db message sid).response = Except.error c) :
    c = 500 := by
  simp only [chat_endpoint] at h
  split at h
  · simp at h; omega
  · split at h
    · simp at h
    · split at h
      · simp at h; omega
      · split at h
        · simp at h; omega
        · simp at h

theorem goodHistoryB_append (h extra : List Message)
    (hh : goodHistoryB h = true) (hx : ∀ x ∈ extra, isSystem x = false) :
    goodHistoryB (h ++ extra) = true := by
  have hex : extra.all (fun m => !(isSystem m)) = true :=
    List.all_eq_true.mpr (fun x hxm => by simp [hx x hxm])
  cases h with
  | nil => simp [goodHistoryB] at hh
  | cons m0 rest =>
    cases m0 with
    | system c =>
      simp only [List.cons_append, goodHistoryB, List.all_append,
        Bool.and_eq_true] at hh ⊢
      exact ⟨hh.1, hh.2, hex⟩
    | human c => simp [goodHistoryB] at hh
    | ai c tcs => simp [goodHistoryB] at hh
    | toolMsg i n c => simp [goodHistoryB] at hh

theorem goodHistoryB_seed : goodHistoryB [Message.system serverSystemPrompt] = true := by
  simp [goodHistoryB]

theorem dbGood_access (db : SessionDB) (sid : String) (hg : dbGood db) :
    dbGood (get_session_history db sid).1 := by
  unfold get_session_history
  cases hl : lookupSession db sid with
  | some h => simpa using hg
  | none =>
    intro s2 h2 hlk
    simp only [lookupSession, List.lookup] at hlk
    cases hsk : s2 == sid with
    | true =>
      rw [hsk] at hlk
      injection hlk with hlk
      rw [← hlk]
      exact goodHistoryB_seed
    | false =>
      rw [hsk] at hlk
      exact hg s2 h2 hlk

theorem get_session_history_good (db : SessionDB) (sid : String) (hg : dbGood db) :
    goodHistoryB (get_session_history db sid).2 = true := by
  unfold get_session_history
  cases hl : lookupSession db sid with
  | some h => simpa using hg sid h hl
  | none => simpa using goodHistoryB_seed

theorem dbGood_chat (model : ModelFn) (m : ToolMap) (db : SessionDB)
    (message sid : String) (hg : dbGood db) :
    dbGood (chat_endpoint model m db message sid).db := by
  obtain ⟨tail, hdb, htail⟩ := chat_endpoint_db_shape model m db message sid
  rw [hdb]
  intro s2 h2 hlk
  by_cases hs : s2 = sid
  · subst hs
    rw [lookup_updateSession_self] at hlk
    injection hlk with hlk
    rw [← hlk]
    refine goodHistoryB_append _ _ (get_session_history_good db s2 hg) ?_
    intro x hx
    rcases List.mem_cons.mp hx with rfl | hx2
    · rfl
    · exact htail x hx2
  · rw [lookup_updateSession_ne _ _ _ _ hs] at hlk
    exact dbGood_access db sid hg s2 h2 hlk

theorem dbGood_runOps (ops : List Op) (db : SessionDB) (hg : dbGood db) :
    dbGood (runOps ops db) := by
  induction ops generalizing db with
  | nil => simpa [runOps] using hg
  | cons op rest ih =>
    cases op with
    | access sid => exact ih _ (dbGood_access db sid hg)
    | chat model m message sid => exact ih _ (dbGood_chat model m db message sid hg)

/-! ## Claim theorems -/

/-- C1: the claim states that every file path whose resolution against the
base directory `home/Desktop/portfolio` lands outside that directory gets the
security-violation string and is never opened.  The code instead compares
rendered path strings with `startswith`, so the sibling directory
`portfolioX` — outside the base directory — passes the check and its file is
opened and returned: the hardened tool violates the claimed guarantee. -/
theorem C1_prefix_check_bypass :
    insideBaseDir demoHome "../portfolioX/secret.txt" = false ∧
    read_local_file demoHome demoFs "../portfolioX/secret.txt" =
      "[File Content of secret.txt]\nTOP-SECRET" ∧
    read_local_file demoHome demoFs "../portfolioX/secret.txt" ≠ securityViolation := by
  refine ⟨by decide, by decide, by decide⟩

/-- C9: the time tool's zone resolution — a query containing `KST`
(after uppercasing) resolves to `Asia/Seoul`; a query matching none of the
seven keywords resolves to the default `America/Chicago`; and the loop is
exactly the first-match-wins case-insensitive substring lookup in the fixed
table. -/
theorem C9_zone_resolution :
    (∀ q, hasSegment "KST".data (upperStr q).data = true →
        resolve_target_zone q = "Asia/Seoul") ∧
    (∀ q, (∀ kv ∈ zone_mapping, hasSegment kv.1.data (upperStr q).data = false) →
        resolve_target_zone q = "America/Chicago") ∧
    (∀ q, resolve_target_zone q = specTargetZone q) := by
  refine ⟨?_, ?_, ?_⟩
  · intro q h
    simp [resolve_target_zone, zone_mapping, zoneLoop, h]
  · intro q h
    have h1 := h ("KST", "Asia/Seoul") (by simp [zone_mapping])
    have h2 := h ("SEOUL", "Asia/Seoul") (by simp [zone_mapping])
    have h3 := h ("KOREA", "Asia/Seoul") (by simp [zone_mapping])
    have h4 := h ("한국", "Asia/Seoul") (by simp [zone_mapping])
    have h5 := h ("CST", "America/Chicago") (by simp [zone_mapping])
    have h6 := h ("TEXAS", "America/Chicago") (by simp [zone_mapping])
    have h7 := h ("CHICAGO", "America/Chicago") (by simp [zone_mapping])
    simp only at h1 h2 h3 h4 h5 h6 h7
    simp [resolve_target_zone, zone_mapping, zoneLoop, h1, h2, h3, h4, h5, h6, h7]
  · intro q
    rw [resolve_target_zone, specTargetZone, zoneLoop_eq_find]

/-- Witness for C9 at concrete queries: a lowercase `kst` query resolves to
Seoul and an unmatched query falls back to the default zone. -/
theorem C9_zone_resolution_witness :
    resolve_target_zone "what time is it in kst" = "Asia/Seoul" ∧
    resolve_target_zone "hello there" = "America/Chicago" :=
  ⟨C9_zone_resolution.1 "what time is it in kst" (by decide),
   C9_zone_resolution.2.1 "hello there" (by decide)⟩

/-- C8: first access to a session id seeds the history with exactly one
System message and stores it; later accesses return the stored history with
the store unchanged; and under any sequence of accesses and `/chat` requests
starting from the empty store, every stored history has the System message
at index 0 and no System message anywhere else. -/
theorem C8_session_seeding_invariant :
    (∀ db sid, lookupSession db sid = none →
        get_session_history db sid =
          ((sid, [Message.system serverSystemPrompt]) :: db,
           [Message.system serverSystemPrompt])) ∧
    (∀ db sid h, lookupSession db sid = some h →
        get_session_history db sid = (db, h)) ∧
    (∀ ops sid h, lookupSession (runOps ops []) sid = some h →
        goodHistoryB h = true) := by
  refine ⟨?_, ?_, ?_⟩
  · intro db sid hl
    unfold get_session_history
    rw [hl]
  · intro db sid h hl
    unfold get_session_history
    rw [hl]
  · intro ops sid h hl
    refine dbGood_runOps ops [] ?_ sid h hl
    intro s2 h2 hc
    simp [lookupSession, List.lookup] at hc

/-- Witness for C8: creation of a fresh session, idempotent re-access, and
the invariant evaluated on the history produced by one access. -/
theorem C8_session_seeding_invariant_witness :
    get_session_history emptyDb "default_user" =
      (("default_user", [Message.system serverSystemPrompt]) :: emptyDb,
       [Message.system serverSystemPrompt]) ∧
    get_session_history [("u", [Message.system serverSystemPrompt])] "u" =
      ([("u", [Message.system serverSystemPrompt])],
       [Message.system serverSystemPrompt]) ∧
    goodHistoryB [Message.system serverSystemPrompt] = true :=
  ⟨C8_session_seeding_invariant.1 emptyDb "default_user" rfl,
   C8_session_seeding_invariant.2.1 _ "u" _ rfl,
   C8_session_seeding_invariant.2.2 [Op.access "u"] "u" _ rfl⟩

/-- C10: a completed `/chat` request for one session id leaves every other
session's history untouched, and the only session possibly added to the
store is the requested one (which always exists afterwards). -/
theorem C10_session_frame :
    ∀ model m db message sid s2, s2 ≠ sid →
      lookupSession (chat_endpoint model m db message sid).db s2 =
        lookupSession db s2 ∧
      (lookupSession (chat_endpoint model m db message sid).db sid).isSome = true := by
  intro model m db message sid s2 hne
  obtain ⟨tail, hdb, htail⟩ := chat_endpoint_db_shape model m db message sid
  rw [hdb]
  constructor
  · rw [lookup_updateSession_ne _ _ _ _ hne]
    exact get_session_history_frame db sid s2 hne
  · rw [lookup_updateSession_self]
    rfl

/-- Witness for C10: a request for `default_user` leaves the pre-existing
`other` session exactly as it was and creates the requested session. -/
theorem C10_session_frame_witness :
    lookupSession (chat_endpoint demoToolModel demoServerMap
        [("other", [Message.system serverSystemPrompt])] "hi" "default_user").db
      "other" =
      lookupSession [("other", [Message.system serverSystemPrompt])] "other" ∧
    (lookupSession (chat_endpoint demoToolModel demoServerMap
        [("other", [Message.system serverSystemPrompt])] "hi" "default_user").db
      "default_user").isSome = true :=
  C10_session_frame demoToolModel demoServerMap
    [("other", [Message.system serverSystemPrompt])] "hi" "default_user" "other"
    (by decide)

/-- C7: an exception escaping a whole orchestration pass is caught at the
transport boundary — the interactive adapter prints the generic
pipeline-failure line and keeps looping with the grown history, the HTTP
adapter answers the generic 500 — and in both adapters the history keeps the
new Human message and everything appended before the failure. -/
theorem C7_transport_boundary :
    (∀ model m a history input rest e,
        (lowerStr input == "quit" || lowerStr input == "exit") = false →
        (mainPass model m a history input).result = PassResult.pipelineError e →
        mainLoop model m a (input :: rest) history =
          ("[Critical Error] Agent 파이프라인 붕괴: " ++ e) ::
            mainLoop model m a rest (mainPass model m a history input).history ∧
        ∃ tail, (mainPass model m a history input).history =
          history ++ Message.human input :: tail) ∧
    (∀ model m db message sid c,
        (chat_endpoint model m db message sid).response = Except.error c →
        c = 500 ∧
        ∃ tail, lookupSession (chat_endpoint model m db message sid).db sid =
          some ((get_session_history db sid).2 ++ Message.human message :: tail)) := by
  constructor
  · intro model m a history input rest e hq hr
    refine ⟨?_, mainPass_history_shape model m a history input⟩
    simp [mainLoop, hq, hr, printedLine]
  · intro model m db message sid c hr
    refine ⟨chat_endpoint_error_code model m db message sid c hr, ?_⟩
    obtain ⟨tail, hdb, htail⟩ := chat_endpoint_db_shape model m db message sid
    rw [hdb, lookup_updateSession_self]
    exact ⟨tail, rfl⟩

/-- Witness for C7 with an unreachable model: the interactive loop emits the
generic failure line and keeps the Human message; the HTTP request gets a 500
while the store keeps the appended Human message. -/
theorem C7_transport_boundary_witness :
    (mainLoop demoFailModel demoMainMap demoApproval ["hi"] [] =
      ("[Critical Error] Agent 파이프라인 붕괴: " ++ "engine unreachable") ::
        mainLoop demoFailModel demoMainMap demoApproval []
          (mainPass demoFailModel demoMainMap demoApproval [] "hi").history ∧
     ∃ tail, (mainPass demoFailModel demoMainMap demoApproval [] "hi").history =
       [] ++ Message.human "hi" :: tail) ∧
    (500 = 500 ∧
     ∃ tail, lookupSession (chat_endpoint demoFailModel demoServerMap emptyDb
         "hello" "default_user").db "default_user" =
       some ((get_session_history emptyDb "default_user").2 ++
         Message.human "hello" :: tail)) :=
  ⟨C7_transport_boundary.1 demoFailModel demoMainMap demoApproval [] "hi" []
     "engine unreachable" (by decide) rfl,
   C7_transport_boundary.2 demoFailModel demoServerMap emptyDb "hello"
     "default_user" 500 rfl⟩

/-- C2 is refuted as stated: the first-phase response carries exactly one
tool request, but because its name is unregistered the pass performs zero
tool invocations (not one) — it still performs the two model invocations. -/
theorem C2_counterexample :
    cex2Model [Message.system serverSystemPrompt, Message.human "hi"] =
      Except.ok ⟨"", [cex2Call]⟩ ∧
    [cex2Call].length = 1 ∧
    toolInvokeCount
      (chat_endpoint cex2Model demoServerMap emptyDb "hi" "default_user").events = 0 ∧
    modelInvokeCount
      (chat_endpoint cex2Model demoServerMap emptyDb "hi" "default_user").events = 2 := by
  refine ⟨rfl, rfl, rfl, rfl⟩

/-- C2 (amended): with no tool requests each adapter performs exactly one
model invocation; with at least one request it performs exactly one tool
invocation per request that resolves to a registered tool (and, in the
interactive adapter, survives the human-in-the-loop gate), in emitted order,
plus exactly one second-phase model invocation (for the HTTP adapter,
provided no invocation raises). -/
theorem C2_invocation_trace :
    (∀ model m a history input response,
        model (history ++ [Message.human input]) = Except.ok response →
        (response.tool_calls = [] →
          (mainPass model m a history input).events = [Event.modelInvoke]) ∧
        (response.tool_calls ≠ [] →
          (mainPass model m a history input).events =
            Event.modelInvoke ::
              (response.tool_calls.filter (mainInvoked m a)).map
                (fun tc => Event.toolInvoke tc.name) ++ [Event.modelInvoke])) ∧
    (∀ model m db message sid response,
        model ((get_session_history db sid).2 ++ [Message.human message]) =
          Except.ok response →
        (response.tool_calls = [] →
          (chat_endpoint model m db message sid).events = [Event.modelInvoke]) ∧
        (response.tool_calls ≠ [] →
          (serverProcessCalls m response.tool_calls).err = none →
          (chat_endpoint model m db message sid).events =
            Event.modelInvoke ::
              (response.tool_calls.filter (serverInvoked m)).map
                (fun tc => Event.toolInvoke tc.name) ++ [Event.modelInvoke])) := by
  constructor
  · intro model m a history input response hm
    rw [mainPass_events model m a history input response hm]
    constructor
    · intro hnil
      simp [hnil]
    · intro hne
      rw [if_neg (by simp [isEmpty_false_of_ne _ hne])]
      rw [mainProcessCalls_events]
  · intro model m db message sid response hm
    rw [chat_endpoint_events model m db message sid response hm]
    constructor
    · intro hnil
      simp [hnil]
    · intro hne herr
      rw [if_neg (by simp [isEmpty_false_of_ne _ hne]), if_pos herr]
      rw [serverProcessCalls_events_of_ok m response.tool_calls herr]

/-- Witness for C2 (amended), interactive side: one registered request gives
the trace model-inference, one tool invocation, model-inference. -/
theorem C2_invocation_trace_witness :
    (mainPass demoToolModel demoMainMap demoApproval [] "hi").events =
      [Event.modelInvoke, Event.toolInvoke "search_memory", Event.modelInvoke] :=
  ((C2_invocation_trace.1 demoToolModel demoMainMap demoApproval [] "hi"
      ⟨"", [⟨"call_1", "search_memory", "rules"⟩]⟩ rfl).2 (by decide)).trans
    (by decide)

/-- C3 is refuted as stated: in the HTTP adapter the second-phase response is
empty, yet the user-visible reply is the empty string, not the fallback —
the empty-output guard exists only in the interactive adapter. -/
theorem C3_counterexample :
    (chat_endpoint cex3Model demoServerMap emptyDb "hi" "u").response =
      Except.ok "" ∧
    "" ≠ jarvisFallback := by
  refine ⟨rfl, by decide⟩

/-- C3 (amended): in the interactive adapter, whenever the second-phase
response's text is empty or whitespace-only, the printed reply is the fixed
fallback message, which is not the empty string. -/
theorem C3_interactive_empty_guard :
    ∀ model m a history input response finalResponse,
      model (history ++ [Message.human input]) = Except.ok response →
      response.tool_calls ≠ [] →
      model (history ++ Message.human input ::
          Message.ai response.content response.tool_calls ::
          (mainProcessCalls m a response.tool_calls).1) = Except.ok finalResponse →
      stripStr finalResponse.content = "" →
      (mainPass model m a history input).result = PassResult.reply jarvisFallback ∧
      jarvisFallback ≠ "" := by
  intro model m a history input response finalResponse hm hne hm2 hblank
  have hne2 : response.tool_calls.isEmpty = false := isEmpty_false_of_ne _ hne
  refine ⟨?_, by decide⟩
  simp [mainPass, hm, hne2, hm2, hblank]

/-- Witness for C3 (amended): a model whose second phase answers only
whitespace makes the interactive pass reply with the fixed fallback. -/
theorem C3_interactive_empty_guard_witness :
    (mainPass demoBlankModel demoMainMap demoApproval [] "hi").result =
      PassResult.reply jarvisFallback ∧ jarvisFallback ≠ "" :=
  C3_interactive_empty_guard demoBlankModel demoMainMap demoApproval [] "hi"
    ⟨"", [⟨"call_1", "search_memory", "rules"⟩]⟩ ⟨"  \n", []⟩ rfl (by decide) rfl
    (by decide)

/-- C4 is refuted as stated: in the HTTP adapter a raising tool invocation
(here `invoke` failing schema validation) produces no ToolResult at all,
aborts the rest of the batch (the following registered request is never
processed), skips the second-phase inference, and fails the request with the
generic 500. -/
theorem C4_counterexample :
    (serverProcessCalls cex4Map cex4Calls).msgs = [] ∧
    (serverProcessCalls cex4Map cex4Calls).err =
      some "1 validation error for web_search" ∧
    (chat_endpoint cex4Model cex4Map emptyDb "hi" "u").response =
      Except.error 500 ∧
    modelInvokeCount (chat_endpoint cex4Model cex4Map emptyDb "hi" "u").events = 1 := by
  refine ⟨rfl, rfl, rfl, rfl⟩

/-- C4 (amended): in the interactive adapter every tool request yields
exactly one ToolResult; a raising invocation yields the fallback ToolResult
embedding the failure reason, without disturbing the messages of the
requests before and after it in the batch, and the pass still completes with
a reply whenever the model calls themselves succeed. -/
theorem C4_interactive_tool_failure :
    (∀ m a tcs, (mainProcessCalls m a tcs).1.length = tcs.length) ∧
    (∀ m a pre post tc t e,
        List.lookup (lowerStr tc.name) m = some t →
        t tc.args = Except.error e →
        (tc.name == "delete_database_table" && !(a tc)) = false →
        (mainProcessCalls m a (pre ++ tc :: post)).1 =
          (mainProcessCalls m a pre).1 ++
            Message.toolMsg tc.id tc.name (toolFailureFallback e) ::
              (mainProcessCalls m a post).1 ∧
        hasSegment e.data (toolFailureFallback e).data = true) ∧
    (∀ model m a history input response finalResponse,
        model (history ++ [Message.human input]) = Except.ok response →
        response.tool_calls ≠ [] →
        model (history ++ Message.human input ::
            Message.ai response.content response.tool_calls ::
            (mainProcessCalls m a response.tool_calls).1) = Except.ok finalResponse →
        ∃ txt, (mainPass model m a history input).result = PassResult.reply txt) := by
  refine ⟨mainProcessCalls_msgs_length, ?_, ?_⟩
  · intro m a pre post tc t e hl ht hgate
    constructor
    · rw [mainProcessCalls_append]
      simp [mainProcessCalls, mainProcessOne, hgate, hl, ht]
    · exact hasSegment_str_suffix "[System Fallback] 도구 실행 실패: " e
  · intro model m a history input response finalResponse hm hne hm2
    have hne2 : response.tool_calls.isEmpty = false := isEmpty_false_of_ne _ hne
    refine ⟨if stripStr finalResponse.content == "" then jarvisFallback
            else finalResponse.content, ?_⟩
    simp [mainPass, hm, hne2, hm2]

/-- Witness for C4 (amended): a batch where the first invocation raises — it
becomes a fallback ToolResult naming the failure and the following request
is still processed. -/
theorem C4_interactive_tool_failure_witness :
    (mainProcessCalls cex4Map demoApproval
        [⟨"c1", "web_search", "q"⟩, ⟨"c2", "search_memory", "r"⟩]).1 =
      (mainProcessCalls cex4Map demoApproval []).1 ++
        Message.toolMsg "c1" "web_search"
          (toolFailureFallback "1 validation error for web_search") ::
          (mainProcessCalls cex4Map demoApproval [⟨"c2", "search_memory", "r"⟩]).1 ∧
    hasSegment "1 validation error for web_search".data
      (toolFailureFallback "1 validation error for web_search").data = true :=
  C4_interactive_tool_failure.2.1 cex4Map demoApproval []
    [⟨"c2", "search_memory", "r"⟩] ⟨"c1", "web_search", "q"⟩
    (fun _ => Except.error "1 validation error for web_search")
    "1 validation error for web_search" rfl rfl rfl

/-- C5 is refuted as stated: `delete_database_table` is not in the registry,
and when the human denies its gated request the appended ToolResult reads
`User denied.`, which does not name the invalid tool. -/
theorem C5_counterexample :
    (List.lookup (lowerStr cex5Call.name) demoMainMap).isSome = false ∧
    mainProcessOne demoMainMap denyAll cex5Call =
      (Message.toolMsg "call_9" "delete_database_table" "User denied.", []) ∧
    hasSegment cex5Call.name.data "User denied.".data = false := by
  refine ⟨rfl, rfl, by decide⟩

/-- C5 (amended): in the interactive adapter a request naming an
unregistered tool always yields a ToolResult without raising; its text names
the invalid tool, except for a `delete_database_table` request that the
human denies, whose ToolResult is the fixed `User denied.` string. -/
theorem C5_unregistered_fallback :
    (∀ m a tc, (List.lookup (lowerStr tc.name) m).isSome = false →
        (tc.name == "delete_database_table" && !(a tc)) = false →
        mainProcessOne m a tc =
          (Message.toolMsg tc.id tc.name (unknownToolFallback tc.name), []) ∧
        hasSegment tc.name.data (unknownToolFallback tc.name).data = true) ∧
    (∀ m a tc, (tc.name == "delete_database_table" && !(a tc)) = true →
        mainProcessOne m a tc = (Message.toolMsg tc.id tc.name "User denied.", [])) := by
  constructor
  · intro m a tc hl hgate
    have hl2 : List.lookup (lowerStr tc.name) m = none := by
      cases hx : List.lookup (lowerStr tc.name) m with
      | none => rfl
      | some t => rw [hx] at hl; simp at hl
    constructor
    · simp [mainProcessOne, hgate, hl2]
    · have h := hasSegment_append_middle ("[System Fallback] " ++ "\"" ++ "'").data
        tc.name.data
        ("' 도구는 존재하지 않습니다." ++ "\"" ++ " 사용할 수 있는 도구만 사용하세요.").data
      simpa [unknownToolFallback, keyErrorStr, String.data_append,
        List.append_assoc] using h
  · intro m a tc hgate
    simp [mainProcessOne, hgate]

/-- Witness for C5 (amended): the unregistered `weather_api` request yields
the fallback ToolResult whose text contains the tool name. -/
theorem C5_unregistered_fallback_witness :
    mainProcessOne demoMainMap demoApproval cex2Call =
      (Message.toolMsg "call_1" "weather_api" (unknownToolFallback "weather_api"),
       []) ∧
    hasSegment "weather_api".data (unknownToolFallback "weather_api").data = true :=
  C5_unregistered_fallback.1 demoMainMap demoApproval cex2Call rfl rfl

/-- C6: the HTTP adapter silently skips a request naming an unregistered
tool — removing it from the batch changes neither messages, events, nor the
escaping exception — and when the batch completes without an exception the
second-phase inference still runs (two model invocations in total). -/
theorem C6_http_silent_skip :
    (∀ m pre post bad, List.lookup (lowerStr bad.name) m = none →
        serverProcessCalls m (pre ++ bad :: post) =
          serverProcessCalls m (pre ++ post)) ∧
    (∀ model m db message sid response,
        model ((get_session_history db sid).2 ++ [Message.human message]) =
          Except.ok response →
        response.tool_calls ≠ [] →
        (serverProcessCalls m response.tool_calls).err = none →
        modelInvokeCount (chat_endpoint model m db message sid).events = 2) := by
  constructor
  · intro m pre post bad hb
    exact serverProcessCalls_skip m pre post bad hb
  · intro model m db message sid response hm hne herr
    rw [chat_endpoint_events model m db message sid response hm]
    rw [if_neg (by simp [isEmpty_false_of_ne _ hne]), if_pos herr]
    exact modelInvokeCount_wrap _ (serverProcessCalls_events_tool m response.tool_calls)

/-- Witness for C6: the unregistered `weather_api` request is dropped from a
concrete batch without any trace, and a request batch with one registered
tool still reaches the second inference. -/
theorem C6_http_silent_skip_witness :
    serverProcessCalls demoServerMap
        ([] ++ cex2Call :: [⟨"c2", "search_memory", "r"⟩]) =
      serverProcessCalls demoServerMap ([] ++ [⟨"c2", "search_memory", "r"⟩]) ∧
    modelInvokeCount (chat_endpoint cex3Model demoServerMap emptyDb "hi" "u").events = 2 :=
  ⟨C6_http_silent_skip.1 demoServerMap [] [⟨"c2", "search_memory", "r"⟩] cex2Call rfl,
   C6_http_silent_skip.2 cex3Model demoServerMap emptyDb "hi" "u"
     ⟨"", [⟨"call_1", "search_memory", "rules"⟩]⟩ rfl (by decide) rfl⟩

end Jarvis
